import Mathlib

/-!
Verification development for kml_2_leaflet.py (RF-Sim).

The source is a batch converter from KML files to Leaflet-friendly JSON
manifests.  The definitions below are a shallow embedding of that file:

* pure string helpers (`slugify`, `extract_tx_height`, Python `str.strip`
  and `float`) are embedded as executable Lean functions;
* an XML document is embedded as the tree of values the source's
  namespace-tolerant accessors (`find_element` / `find_text` /
  `find_all_elements`) return: each `Option String` field is the raw text of
  the element the accessor finds, `none` when no element is found under any
  candidate namespace;
* the filesystem and the network are passed in explicitly (`NetEvent`,
  `OverlayWorld`): a download is a function of the abstract HTTP outcome;
* Python exceptions become `Except String`; numbers are embedded as `ℚ`
  (Python floats idealized as exact rationals on the decimal literals the
  tool manipulates).
-/

namespace KmlToLeaflet

/-! ## Python string helpers -/

/-- ASCII whitespace, modelling the characters Python `str.strip()` and the
regex class backslash-s remove on the inputs considered (space, tab, LF, CR,
vertical tab, form feed). -/
def isPyWS (c : Char) : Bool :=
  c = ' ' || c = Char.ofNat 9 || c = Char.ofNat 10 || c = Char.ofNat 13 ||
    c = Char.ofNat 11 || c = Char.ofNat 12

/-- Strip leading and trailing whitespace from a character list. -/
def stripList (l : List Char) : List Char :=
  ((l.dropWhile isPyWS).reverse.dropWhile isPyWS).reverse

/-- Embeds Python `str.strip()`. -/
def pyStrip (s : String) : String := ⟨stripList s.data⟩

/-- The character class [A-Za-z0-9_.-] kept by `slugify`. -/
def allowedSlug (c : Char) : Bool :=
  ('A' ≤ c && c ≤ 'Z') || ('a' ≤ c && c ≤ 'z') || ('0' ≤ c && c ≤ '9') ||
    c = '_' || c = '.' || c = '-'

/-- Replace every maximal run of characters outside [A-Za-z0-9_.-] by a single
underscore; the boolean records whether the previous character was inside such
a run.  Embeds `re.sub` of the complemented-class-plus pattern with an
underscore. -/
def subRunsAux : Bool → List Char → List Char
  | _, [] => []
  | inRun, c :: cs =>
    if allowedSlug c then c :: subRunsAux false cs
    else if inRun then subRunsAux true cs
    else '_' :: subRunsAux true cs

/-- Embeds `slugify` from the source: strip, replace disallowed runs by `_`,
and fall back to the literal "site" when the result is empty. -/
def slugify (s : String) : String :=
  let r : String := ⟨subRunsAux false (stripList s.data)⟩
  if r = "" then "site" else r

/-- Decimal digit. -/
def isDigitC (c : Char) : Bool := '0' ≤ c && c ≤ '9'

/-- Value of a digit string. -/
def digitsVal (l : List Char) : Nat :=
  l.foldl (fun a c => a * 10 + (c.toNat - 48)) 0

/-- Embeds Python `float()` on an unsigned decimal body (the digit-and-dot
strings the source feeds it): at most one dot, at least one digit.  Other
forms Python `float` accepts (exponents, inf and nan, underscores) are outside
the input space the tool produces. -/
def pyFloatCore (l : List Char) : Option ℚ :=
  let ip := l.takeWhile isDigitC
  let rest := l.dropWhile isDigitC
  match rest with
  | [] => if ip.isEmpty then none else some (digitsVal ip)
  | c :: fp =>
    if c = '.' then
      if fp.all isDigitC && (!ip.isEmpty || !fp.isEmpty) then
        some ((digitsVal ip : ℚ) + (digitsVal fp : ℚ) / ((10 : ℚ) ^ fp.length))
      else none
    else none

/-- Embeds Python `float()` on optionally signed decimal literals with
surrounding whitespace. -/
def pyFloat (s : String) : Option ℚ :=
  match stripList s.data with
  | '-' :: r => (pyFloatCore r).map (fun q => -q)
  | '+' :: r => pyFloatCore r
  | r => pyFloatCore r

/-- Embeds Python `str.split(",")`: split at every comma, keeping empty
fields; the result is never empty. -/
def splitComma : List Char → List (List Char)
  | [] => [[]]
  | c :: cs =>
    if c = ',' then [] :: splitComma cs
    else
      match splitComma cs with
      | f :: rest => (c :: f) :: rest
      | [] => [[c]]

/-! ## The height-pattern scanner (extract_tx_height) -/

/-- Digit or dot: the regex class the height patterns capture. -/
def isDigitDot (c : Char) : Bool := isDigitC c || c = '.'

/-- Case-insensitive literal comparison of a pattern against the head of the
subject. -/
def headMatchCI : List Char → List Char → Bool
  | [], _ => true
  | _ :: _, [] => false
  | p :: ps, c :: cs => (p.toLower = c.toLower) && headMatchCI ps cs

/-- Try the pattern lit-whitespace-digits-whitespace-m at exactly this
position; return the captured digit run on success.  The greedy quantifiers of
the source regex are deterministic here because the three character classes
(whitespace, digit-or-dot, the literal m) are pairwise disjoint. -/
def matchHeightAt (lit : List Char) (l : List Char) : Option (List Char) :=
  if headMatchCI lit l then
    let r1 := (l.drop lit.length).dropWhile isPyWS
    let ds := r1.takeWhile isDigitDot
    if ds.isEmpty then none
    else
      match (r1.dropWhile isDigitDot).dropWhile isPyWS with
      | c :: _ => if c.toLower = 'm' then some ds else none
      | [] => none
  else none

/-- Leftmost-match search of the height pattern: embeds `re.search` with
`re.I` of the source patterns. -/
def searchHeight (lit : List Char) : List Char → Option (List Char)
  | [] => none
  | c :: cs =>
    match matchHeightAt lit (c :: cs) with
    | some ds => some ds
    | none => searchHeight lit cs

/-- Embeds `extract_tx_height`: try the TX-Height pattern first; when it is
absent or its capture fails `float()`, fall back to the Height pattern. -/
def extract_tx_height (desc : String) : Option ℚ :=
  if desc = "" then none
  else
    let tx := match searchHeight "TX Height:".data desc.data with
      | some ds => pyFloatCore ds
      | none => none
    match tx with
    | some q => some q
    | none =>
      match searchHeight "Height:".data desc.data with
      | some ds => pyFloatCore ds
      | none => none

/-! ## The KML document model

Each field is what the corresponding accessor lookup in the source returns:
the raw text of the first element found (trying each candidate namespace and
then no namespace), `none` when nothing is found. -/

/-- The Placemark element: name and legacy n tags, the Point coordinates
text, and the description text.  `parse_kml` never reads the description of a
Placemark; it is carried so that spec-level statements about embedded
metadata can be made about concrete documents. -/
structure PlacemarkElem where
  nameTag : Option String
  nTag : Option String
  coordinatesText : Option String
  descriptionText : Option String
deriving DecidableEq, Repr

/-- The Icon element inside a GroundOverlay. -/
structure IconElem where
  hrefText : Option String
deriving DecidableEq, Repr

/-- The LatLonBox element: the four edge texts and the rotation text. -/
structure LatLonBoxElem where
  southText : Option String
  westText : Option String
  northText : Option String
  eastText : Option String
  rotationText : Option String
deriving DecidableEq, Repr

/-- A GroundOverlay block. -/
structure GroundOverlayElem where
  nameTag : Option String
  nTag : Option String
  descriptionText : Option String
  latLonBox : Option LatLonBoxElem
  icon : Option IconElem
deriving DecidableEq, Repr

/-- The Document element (only its name tags are read). -/
structure DocumentElem where
  nameTag : Option String
  nTag : Option String
deriving DecidableEq, Repr

/-- A parsed KML tree, as seen through the accessors. -/
structure KmlDoc where
  document : Option DocumentElem
  placemark : Option PlacemarkElem
  groundOverlays : List GroundOverlayElem
deriving DecidableEq, Repr

/-! ## parse_kml -/

/-- Embeds `get_element_name`: the stripped name-tag text when truthy (the
namespace-tolerant `find_text` returns the stripped text of a truthy raw
text, else the empty default), else the stripped legacy n-tag text when its
raw text is truthy, else nothing. -/
def get_element_name (nameTag nTag : Option String) : Option String :=
  let name := match nameTag with
    | some t => if t = "" then "" else pyStrip t
    | none => ""
  if name ≠ "" then some name
  else
    match nTag with
    | some t => if t = "" then none else some (pyStrip t)
    | none => none

/-- Python truthiness of an optional string. -/
def strOptTruthy : Option String → Bool
  | some s => s ≠ ""
  | none => false

/-- The site name `parse_kml` computes: the Document element's name (name or
legacy n tag) when truthy, else the source file's stem. -/
def siteNameOf (stem : String) (d : KmlDoc) : String :=
  let n0 := match d.document with
    | some e => get_element_name e.nameTag e.nTag
    | none => none
  match n0 with
  | some s => if s = "" then stem else s
  | none => stem

/-- The effective coordinates text of a Placemark: the stripped text when the
raw text is truthy, else empty (the `find_text` default). -/
def coordTextOf (pm : PlacemarkElem) : String :=
  match pm.coordinatesText with
  | some t => if t = "" then "" else pyStrip t
  | none => ""

/-- Embeds the unpacking `lon, lat = map(float, coord.split(",")[:2])`:
the first two comma fields parsed as floats, in source order longitude then
latitude; fewer than two fields or an unparsable field raises. -/
def parseLonLat (coord : String) : Except String (ℚ × ℚ) :=
  match splitComma coord.data with
  | f1 :: f2 :: _ =>
    match pyFloat ⟨f1⟩ with
    | none => .error "ValueError: could not convert string to float"
    | some lon =>
      match pyFloat ⟨f2⟩ with
      | none => .error "ValueError: could not convert string to float"
      | some lat => .ok (lon, lat)
  | _ => .error "ValueError: not enough values to unpack"

/-- The text the antenna-height loop inspects for one overlay: the
description element's text when truthy, else `get_element_name` of the
overlay. -/
def overlayHeightText (go : GroundOverlayElem) : Option String :=
  let d0 := get_element_name go.nameTag go.nTag
  match go.descriptionText with
  | some t => if t = "" then d0 else some t
  | none => d0

/-- The antenna-height loop of `parse_kml`: first overlay (in document order)
whose text yields a height wins; the default is 10. -/
def antennaHeight : List GroundOverlayElem → ℚ
  | [] => 10
  | go :: rest =>
    match extract_tx_height ((overlayHeightText go).getD "") with
    | some h => h
    | none => antennaHeight rest

/-- Embeds the inner `get_bound` of `parse_kml`: the edge text (from the
direct or the namespaced lookup) parsed as a float; an absent or empty text
is the fatal missing-bound error, an unparsable one the fatal error
`float()` raises. -/
def get_bound (t : Option String) : Except String ℚ :=
  match t with
  | some s =>
    if s = "" then .error "Missing LatLonBox bound"
    else
      match pyFloat s with
      | some q => .ok q
      | none => .error "ValueError: could not convert string to float"
  | none => .error "Missing LatLonBox bound"

/-- The rotation of an overlay: absent or empty text is no rotation, a
present text must parse as a float (else fatal). -/
def parseRotation (t : Option String) : Except String (Option ℚ) :=
  match t with
  | some s =>
    if s = "" then .ok none
    else
      match pyFloat s with
      | some q => .ok (some q)
      | none => .error "ValueError: could not convert string to float"
  | none => .ok none

/-- The overlay's image reference: the stripped href text of the Icon element
when the Icon, the href element and a truthy text are all present. -/
def iconHref (icon : Option IconElem) : Option String :=
  match icon with
  | some ic =>
    match ic.hrefText with
    | some t => if t = "" then none else some (pyStrip t)
    | none => none
  | none => none

/-- One overlay record produced by `parse_kml`. -/
structure OverlayInfo where
  name : String
  href : Option String
  bounds : (ℚ × ℚ) × (ℚ × ℚ)
  rotation : Option ℚ
  png_filename : String
deriving DecidableEq, Repr

/-- One iteration of the overlay loop in `parse_kml`: an overlay without a
LatLonBox is skipped (no error); with one, the href is read, the rotation
and then the four edges are parsed in source order, any failure being
fatal. -/
def mkOverlay (site_name png : String) (go : GroundOverlayElem) :
    Except String (Option OverlayInfo) :=
  match go.latLonBox with
  | none => .ok none
  | some box =>
    let href := iconHref go.icon
    match parseRotation box.rotationText with
    | .error msg => .error msg
    | .ok rot =>
      match get_bound box.southText with
      | .error msg => .error msg
      | .ok s =>
        match get_bound box.westText with
        | .error msg => .error msg
        | .ok w =>
          match get_bound box.northText with
          | .error msg => .error msg
          | .ok n =>
            match get_bound box.eastText with
            | .error msg => .error msg
            | .ok e =>
              .ok (some { name := site_name, href := href,
                          bounds := ((s, w), (n, e)), rotation := rot,
                          png_filename := png })

/-- The overlay loop of `parse_kml` over all GroundOverlay blocks, in
document order. -/
def mkOverlays (site_name png : String) :
    List GroundOverlayElem → Except String (List OverlayInfo)
  | [] => .ok []
  | go :: rest =>
    match mkOverlay site_name png go with
    | .error msg => .error msg
    | .ok o =>
      match mkOverlays site_name png rest with
      | .error msg => .error msg
      | .ok os =>
        match o with
        | some x => .ok (x :: os)
        | none => .ok os

/-- The record `parse_kml` returns. -/
structure SiteInfo where
  site_name : String
  lat : ℚ
  lon : ℚ
  antenna_agl_m : ℚ
  folder_name : String
  placemark_name : Option String
  overlays : List OverlayInfo
deriving DecidableEq, Repr

/-- Embeds `parse_kml`.  Reading the file and `ET.fromstring` are modelled by
the stem of the path and the parse outcome; `none` models malformed XML,
where `ET.fromstring` raises. -/
def parse_kml (stem : String) (root : Option KmlDoc) : Except String SiteInfo :=
  match root with
  | none => .error "XML parse error"
  | some d =>
    let site_name := siteNameOf stem d
    match d.placemark with
    | none => .error "No <Placemark> found"
    | some pm =>
      let placemark_name := get_element_name pm.nameTag pm.nTag
      let coord := coordTextOf pm
      if coord = "" then .error "No <Point><coordinates> found for site lat/lon"
      else
        match parseLonLat coord with
        | .error msg => .error msg
        | .ok ll =>
          let h := antennaHeight d.groundOverlays
          let png := stem ++ ".png"
          match mkOverlays site_name png d.groundOverlays with
          | .error msg => .error msg
          | .ok os =>
            .ok { site_name := site_name, lat := ll.2, lon := ll.1,
                  antenna_agl_m := h, folder_name := site_name,
                  placemark_name := placemark_name, overlays := os }

/-! ## download and the per-overlay processing of main -/

/-- The outcome of the single GET attempt, as the code observes it: an HTTP
status, a timeout, a connection error, or an OSError while creating or
writing the destination file (`created` records whether a possibly partial
file was created before the OSError). -/
inductive NetEvent where
  | response (status : Nat)
  | timeout
  | connError (msg : String)
  | fsError (msg : String) (created : Bool)
deriving DecidableEq, Repr

/-- The record the source's `DownloadResult` dataclass holds. -/
structure DownloadResult where
  ok : Bool
  http_status : Option Nat
  error : Option String
deriving DecidableEq, Repr

/-- Embeds `download`: classify the outcome and report whether a file at the
destination was created (a 404 and any other non-2xx status return before the
file is opened; a 2xx response streams the body to the file). -/
def download (timeout_s : Nat) (ev : NetEvent) : DownloadResult × Bool :=
  match ev with
  | .response status =>
    if status = 404 then
      ({ ok := false, http_status := some 404, error := some "404 Not Found" }, false)
    else if status < 200 || 300 ≤ status then
      ({ ok := false, http_status := some status,
         error := some ("HTTP " ++ toString status) }, false)
    else
      ({ ok := true, http_status := some status, error := none }, true)
  | .timeout =>
    ({ ok := false, http_status := none,
       error := some ("Timeout after " ++ toString timeout_s ++ "s") }, false)
  | .connError msg =>
    ({ ok := false, http_status := none, error := some msg }, false)
  | .fsError msg created =>
    ({ ok := false, http_status := none,
       error := some ("Filesystem error: " ++ msg) }, created)

/-- The fixed base segment of generated JSON paths. -/
def POTENTIAL_BASE : String := "potential"

/-- One overlay entry of the emitted manifest. -/
structure ManifestEntry where
  name : String
  source_url : Option String
  bounds : (ℚ × ℚ) × (ℚ × ℚ)
  rotation : Option ℚ
  image : Option String
  download_ok : Bool
  http_status : Option Nat
  error : Option String
deriving DecidableEq, Repr

/-- The external facts one overlay's processing consumes: whether the local
PNG next to the KML exists, and the network outcome of a GET were one
attempted. -/
structure OverlayWorld where
  localPresent : Bool
  net : NetEvent
deriving DecidableEq, Repr

instance : Inhabited OverlayWorld := ⟨⟨false, NetEvent.timeout⟩⟩

/-- The manifest-facing image path computed for every overlay. -/
def image_rel (site_name png : String) : String :=
  "/" ++ POTENTIAL_BASE ++ "/" ++ site_name ++ "/overlays/" ++ png

/-- Embeds `href.startswith("http://") or href.startswith("https://")`. -/
def isHttpUrl (h : String) : Bool :=
  "http://".data.isPrefixOf h.data || "https://".data.isPrefixOf h.data

/-- Embeds one iteration of the overlay loop in `main`: the manifest entry
produced for the overlay and whether an image file was placed in the output
overlays directory.  A falsy href or a non-URL href leads to the local-copy
logic; a URL href leads to the skip-downloads short circuit or to the single
download attempt (whose failure leaves `image` null). -/
def processOverlay (skip : Bool) (timeout_s : Nat) (dirName site_name : String)
    (ov : OverlayInfo) (w : OverlayWorld) : ManifestEntry × Bool :=
  let png := ov.png_filename
  let rel := image_rel site_name png
  let base : ManifestEntry :=
    { name := site_name, source_url := ov.href, bounds := ov.bounds,
      rotation := ov.rotation, image := none, download_ok := false,
      http_status := none, error := none }
  let localCopy : ManifestEntry × Bool :=
    if w.localPresent then
      ({ base with image := some rel, download_ok := true, error := none }, true)
    else
      ({ base with
          image := some rel
          download_ok := false
          error := some ("Local file not found: " ++ dirName ++ "/" ++ png) }, false)
  if strOptTruthy ov.href then
    if isHttpUrl (ov.href.getD "") then
      if skip then
        ({ base with
            image := some rel
            download_ok := false
            error := some "Downloads skipped by --skip-downloads" }, false)
      else
        let res := download timeout_s w.net
        let e1 := { base with
                    http_status := res.1.http_status
                    download_ok := res.1.ok
                    error := res.1.error }
        if res.1.ok then ({ e1 with image := some rel }, res.2)
        else (e1, res.2)
    else localCopy
  else localCopy

/-- The overlay loop of `main` over the parsed overlays, feeding each its own
world, in order. -/
def processOverlayList (skip : Bool) (timeout_s : Nat) (dirName site_name : String)
    (ws : Nat → OverlayWorld) : Nat → List OverlayInfo → List (ManifestEntry × Bool)
  | _, [] => []
  | i, ov :: rest =>
    processOverlay skip timeout_s dirName site_name ov (ws i) ::
      processOverlayList skip timeout_s dirName site_name ws (i + 1) rest

/-- The manifest `main` writes for one document. -/
structure Manifest where
  site_name : String
  lat : ℚ
  lon : ℚ
  antenna_agl_m : ℚ
  antenna_agl_note : String
  folder_name : String
  placemark_name : Option String
  source_kml : String
  overlays : List ManifestEntry
deriving DecidableEq, Repr

/-- One input document of the batch: the path pieces `main` uses and the
parse outcome, plus the per-overlay external facts. -/
structure DocInput where
  stem : String
  fileName : String
  dirName : String
  parsed : Option KmlDoc
  worlds : Nat → OverlayWorld

/-- What `main` produces for one successfully parsed document: the slug
directory it writes under, the manifest, the index.json entry, and the image
files placed. -/
structure DocOutput where
  slug : String
  manifest : Manifest
  indexEntry : String
  imagesWritten : List String
deriving DecidableEq, Repr

/-- Embeds one iteration of the document loop of `main`: a fatal parse error
yields nothing (the loop continues); otherwise the manifest is assembled, the
site directory is the slug of the site name, and the index entry embeds the
raw site name. -/
def processDoc (skip : Bool) (timeout_s : Nat) (d : DocInput) : Option DocOutput :=
  match parse_kml d.stem d.parsed with
  | .error _ => none
  | .ok info =>
    let pairs := processOverlayList skip timeout_s d.dirName info.site_name d.worlds 0 info.overlays
    some { slug := slugify info.site_name,
           manifest := { site_name := info.site_name, lat := info.lat, lon := info.lon,
                         antenna_agl_m := info.antenna_agl_m, antenna_agl_note := "",
                         folder_name := info.folder_name,
                         placemark_name := info.placemark_name,
                         source_kml := d.fileName,
                         overlays := pairs.map Prod.fst },
           indexEntry := POTENTIAL_BASE ++ "/" ++ info.site_name ++ "/manifest.json",
           imagesWritten := pairs.filterMap
             (fun p => if p.2 then some p.1.name else none) }

/-- Embeds the batch loop of `main`: the index.json manifest list and the
per-document outputs, in processing order; documents whose parse fails
contribute nothing. -/
def runBatch (skip : Bool) (timeout_s : Nat) (docs : List DocInput) :
    List String × List DocOutput :=
  let outs := docs.filterMap (processDoc skip timeout_s)
  (outs.map (fun o => o.indexEntry), outs)

/-! ## The embedded-metadata decoder, modelled from the spec -/

/-- Case-insensitive search: the suffix right after the first occurrence of
the pattern. -/
def findAfterCI (pat : List Char) : List Char → Option (List Char)
  | [] => none
  | c :: cs =>
    if headMatchCI pat (c :: cs) then some ((c :: cs).drop pat.length)
    else findAfterCI pat cs

/-- Case-insensitive capture: the characters before the first occurrence of
the pattern (the non-greedy capture of the source regex). -/
def takeUntilCI (pat : List Char) : List Char → Option (List Char)
  | [] => none
  | c :: cs =>
    if headMatchCI pat (c :: cs) then some []
    else (takeUntilCI pat cs).map (fun l => c :: l)

/-- Read a JSON string value after a key: colon, then a double-quoted
string. -/
def jsonStringAfter (l : List Char) : Option String :=
  match l.dropWhile isPyWS with
  | c :: r =>
    if c = ':' then
      match r.dropWhile isPyWS with
      | q :: r2 => if q = '"' then some ⟨r2.takeWhile (fun d => d ≠ '"')⟩ else none
      | [] => none
    else none
  | [] => none

/-- Modelled from the spec: the Embedded-Metadata Decoder (spec section 4.3)
has no counterpart in the source file.  Per the spec it scans description
text for a textarea-wrapped, brace-delimited payload (non-greedy,
dot-matches-newline, case-insensitive) and decodes the designated name field,
returning nothing when the marker is absent or the capture fails to decode.
Simplified here to flat payloads with double-quoted string values, which is
enough to state identity-precedence claims on concrete documents. -/
def spec_embedded_name (desc : String) : Option String :=
  match findAfterCI "<textarea".data desc.data with
  | none => none
  | some afterTag =>
    match findAfterCI ">".data afterTag with
    | none => none
    | some afterGt =>
      match takeUntilCI "</textarea>".data afterGt with
      | none => none
      | some captured =>
        let t := stripList captured
        match t with
        | c :: _ =>
          if c = Char.ofNat 123 ∧ t.getLast? = some (Char.ofNat 125) then
            match findAfterCI "\"name\"".data t with
            | some afterKey => jsonStringAfter afterKey
            | none => none
          else none
        | [] => none

/-- Whether an `Except` is an error. -/
def isErr {α : Type} (r : Except String α) : Bool :=
  match r with
  | .error _ => true
  | .ok _ => false

instance {ε α : Type} [DecidableEq ε] [DecidableEq α] : DecidableEq (Except ε α) :=
  fun x y =>
    match x, y with
    | .ok a, .ok b =>
      if h : a = b then .isTrue (by rw [h])
      else .isFalse (fun hh => h (by cases hh; rfl))
    | .error a, .error b =>
      if h : a = b then .isTrue (by rw [h])
      else .isFalse (fun hh => h (by cases hh; rfl))
    | .ok _, .error _ => .isFalse (fun hh => Except.noConfusion hh)
    | .error _, .ok _ => .isFalse (fun hh => Except.noConfusion hh)

/-! ## Helper lemmas -/

lemma allowed_of_mem_subRunsAux :
    ∀ (l : List Char) (b : Bool) (c : Char), c ∈ subRunsAux b l → allowedSlug c = true := by
  intro l
  induction l with
  | nil =>
    intro b c h
    rw [show subRunsAux b [] = [] from rfl] at h
    exact absurd h (List.not_mem_nil c)
  | cons d cs ih =>
    intro b c h
    by_cases hd : allowedSlug d = true
    · simp only [subRunsAux, if_pos hd, List.mem_cons] at h
      rcases h with h | h
      · exact h ▸ hd
      · exact ih false c h
    · cases b with
      | true =>
        simp [subRunsAux, hd] at h
        exact ih true c h
      | false =>
        simp [subRunsAux, hd] at h
        rcases h with h | h
        · subst h; decide
        · exact ih true c h

lemma subRunsAux_eq_self :
    ∀ (l : List Char) (b : Bool), (∀ c ∈ l, allowedSlug c = true) → subRunsAux b l = l := by
  intro l
  induction l with
  | nil => intro b _; rfl
  | cons d cs ih =>
    intro b h
    have hd : allowedSlug d = true := h d (List.mem_cons_self d cs)
    simp only [subRunsAux, if_pos hd]
    rw [ih false (fun c hc => h c (List.mem_cons_of_mem d hc))]

lemma dropWhile_eq_self_of_not (p : Char → Bool) :
    ∀ (l : List Char), (∀ c ∈ l, p c = false) → l.dropWhile p = l := by
  intro l h
  cases l with
  | nil => rfl
  | cons d cs => simp [List.dropWhile, h d (List.mem_cons_self d cs)]

lemma stripList_eq_self (l : List Char) (h : ∀ c ∈ l, isPyWS c = false) :
    stripList l = l := by
  unfold stripList
  rw [dropWhile_eq_self_of_not _ l h]
  rw [dropWhile_eq_self_of_not _ l.reverse (fun c hc => h c (List.mem_reverse.mp hc))]
  exact List.reverse_reverse l

lemma allowed_not_ws (c : Char) (h : allowedSlug c = true) : isPyWS c = false := by
  by_contra hne
  have hw : isPyWS c = true := by
    cases hh : isPyWS c
    · exact absurd hh hne
    · rfl
  simp only [isPyWS, Bool.or_eq_true, decide_eq_true_eq] at hw
  rcases hw with ((((rfl | rfl) | rfl) | rfl) | rfl) | rfl <;> exact absurd h (by decide)

/-- Inversion of a successful `parse_kml`. -/
lemma parse_kml_ok_inv {stem : String} {d : KmlDoc} {info : SiteInfo}
    (h : parse_kml stem (some d) = .ok info) :
    ∃ pm ll os, d.placemark = some pm ∧ coordTextOf pm ≠ "" ∧
      parseLonLat (coordTextOf pm) = .ok ll ∧
      mkOverlays (siteNameOf stem d) (stem ++ ".png") d.groundOverlays = .ok os ∧
      info = { site_name := siteNameOf stem d, lat := ll.2, lon := ll.1,
               antenna_agl_m := antennaHeight d.groundOverlays,
               folder_name := siteNameOf stem d,
               placemark_name := get_element_name pm.nameTag pm.nTag,
               overlays := os } := by
  cases hpm : d.placemark with
  | none => simp [parse_kml, hpm] at h
  | some pm =>
    by_cases hc : coordTextOf pm = ""
    · simp [parse_kml, hpm, hc] at h
    · cases hll : parseLonLat (coordTextOf pm) with
      | error msg => simp [parse_kml, hpm, hc, hll] at h
      | ok ll =>
        cases hos : mkOverlays (siteNameOf stem d) (stem ++ ".png") d.groundOverlays with
        | error msg => simp [parse_kml, hpm, hc, hll, hos] at h
        | ok os =>
          refine ⟨pm, ll, os, rfl, hc, hll, rfl, ?_⟩
          simp only [parse_kml, hpm, hc, hll, hos, if_neg hc] at h
          exact (Except.ok.inj h).symm

/-! ## C9: slug idempotence -/

/-- C9: slugification is idempotent: slugify of a slugified string is itself,
where slugify replaces every run of characters outside [A-Za-z0-9_.-] with a
single underscore and maps an empty result to the literal "site". -/
theorem C9_slugify_idempotent (s : String) : slugify (slugify s) = slugify s := by
  by_cases h : (⟨subRunsAux false (stripList s.data)⟩ : String) = ""
  · have h1 : slugify s = "site" := by
      unfold slugify
      exact if_pos h
    rw [h1]
    decide
  · have h1 : slugify s = ⟨subRunsAux false (stripList s.data)⟩ := by
      unfold slugify
      exact if_neg h
    rw [h1]
    have hall : ∀ c ∈ subRunsAux false (stripList s.data), allowedSlug c = true :=
      fun c hc => allowed_of_mem_subRunsAux _ _ c hc
    have hstrip : stripList (subRunsAux false (stripList s.data)) =
        subRunsAux false (stripList s.data) :=
      stripList_eq_self _ (fun c hc => allowed_not_ws c (hall c hc))
    have hsub : subRunsAux false (subRunsAux false (stripList s.data)) =
        subRunsAux false (stripList s.data) :=
      subRunsAux_eq_self _ false hall
    unfold slugify
    rw [show (⟨subRunsAux false (stripList s.data)⟩ : String).data =
          subRunsAux false (stripList s.data) from rfl, hstrip, hsub]
    exact if_neg h

/-- Evaluation of `pyFloatCore` on a body with a fractional part. -/
lemma pyFloatCore_eval (l ip fp : List Char) (hip : l.takeWhile isDigitC = ip)
    (hdrop : l.dropWhile isDigitC = '.' :: fp) (hfp : fp.all isDigitC = true)
    (hne : (!ip.isEmpty || !fp.isEmpty) = true) :
    pyFloatCore l =
      some ((digitsVal ip : ℚ) + (digitsVal fp : ℚ) / (10 : ℚ) ^ fp.length) := by
  unfold pyFloatCore
  rw [hip, hdrop]
  simp [hfp, hne]

lemma pyFloat_neg122_4 : pyFloat "-122.4" = some (-122.4) := by
  unfold pyFloat
  rw [show stripList "-122.4".data = '-' :: ['1', '2', '2', '.', '4'] from by decide]
  show (pyFloatCore ['1', '2', '2', '.', '4']).map (fun q => -q) = some (-122.4)
  rw [pyFloatCore_eval ['1', '2', '2', '.', '4'] ['1', '2', '2'] ['4']
    (by decide) (by decide) (by decide) (by decide)]
  rw [show digitsVal ['1', '2', '2'] = 122 from by decide]
  rw [show digitsVal ['4'] = 4 from by decide]
  norm_num

lemma pyFloat_37_8 : pyFloat "37.8" = some 37.8 := by
  unfold pyFloat
  rw [show stripList "37.8".data = ['3', '7', '.', '8'] from by decide]
  show pyFloatCore ['3', '7', '.', '8'] = some 37.8
  rw [pyFloatCore_eval ['3', '7', '.', '8'] ['3', '7'] ['8']
    (by decide) (by decide) (by decide) (by decide)]
  rw [show digitsVal ['3', '7'] = 37 from by decide]
  rw [show digitsVal ['8'] = 8 from by decide]
  norm_num

/-! ## C8: coordinate parsing -/

/-- C8: coordinate parsing consumes the first two comma-separated fields of
the Point coordinates text as longitude then latitude, ignores any third
field, and `parse_kml` stores them transposed as latitude, longitude; for the
input text "-122.4,37.8,0" the record holds latitude 37.8 and longitude
-122.4. -/
theorem C8_coordinates :
    (∀ (cs f1 f2 : List Char) (rest : List (List Char)) (x y : ℚ),
        splitComma cs = f1 :: f2 :: rest →
        pyFloat ⟨f1⟩ = some x → pyFloat ⟨f2⟩ = some y →
        parseLonLat ⟨cs⟩ = .ok (x, y)) ∧
    (∀ (stem : String) (d : KmlDoc) (info : SiteInfo) (pm : PlacemarkElem) (ll : ℚ × ℚ),
        d.placemark = some pm → parse_kml stem (some d) = .ok info →
        parseLonLat (coordTextOf pm) = .ok ll →
        info.lat = ll.2 ∧ info.lon = ll.1) ∧
    parseLonLat "-122.4,37.8,0" = .ok (-122.4, 37.8) ∧
    (∀ (stem : String) (d : KmlDoc) (info : SiteInfo) (pm : PlacemarkElem),
        d.placemark = some pm → coordTextOf pm = "-122.4,37.8,0" →
        parse_kml stem (some d) = .ok info →
        info.lat = 37.8 ∧ info.lon = -122.4) := by
  have hgen : ∀ (cs f1 f2 : List Char) (rest : List (List Char)) (x y : ℚ),
      splitComma cs = f1 :: f2 :: rest →
      pyFloat ⟨f1⟩ = some x → pyFloat ⟨f2⟩ = some y →
      parseLonLat ⟨cs⟩ = .ok (x, y) := by
    intro cs f1 f2 rest x y hsplit h1 h2
    unfold parseLonLat
    rw [show (⟨cs⟩ : String).data = cs from rfl, hsplit]
    show (match pyFloat ⟨f1⟩ with
      | none => (Except.error "ValueError: could not convert string to float" :
          Except String (ℚ × ℚ))
      | some lon =>
        match pyFloat ⟨f2⟩ with
        | none => Except.error "ValueError: could not convert string to float"
        | some lat => Except.ok (lon, lat)) = Except.ok (x, y)
    rw [h1, h2]
  have htrans : ∀ (stem : String) (d : KmlDoc) (info : SiteInfo) (pm : PlacemarkElem)
      (ll : ℚ × ℚ), d.placemark = some pm → parse_kml stem (some d) = .ok info →
      parseLonLat (coordTextOf pm) = .ok ll → info.lat = ll.2 ∧ info.lon = ll.1 := by
    intro stem d info pm ll hpm hok hll
    obtain ⟨pm0, ll0, os, hpm0, _, hll0, _, hinfo⟩ := parse_kml_ok_inv hok
    have hpmeq : pm0 = pm := Option.some.inj (hpm0.symm.trans hpm)
    subst hpmeq
    have hlleq : ll0 = ll := Except.ok.inj (hll0.symm.trans hll)
    subst hlleq hinfo
    exact ⟨rfl, rfl⟩
  have hconc : parseLonLat "-122.4,37.8,0" = .ok (-122.4, 37.8) := by
    have hs : splitComma "-122.4,37.8,0".data =
        "-122.4".data :: "37.8".data :: ["0".data] := by decide
    exact hgen "-122.4,37.8,0".data "-122.4".data "37.8".data ["0".data]
      (-122.4) 37.8 hs pyFloat_neg122_4 pyFloat_37_8
  refine ⟨hgen, htrans, hconc, ?_⟩
  intro stem d info pm hpm hco hok
  have := htrans stem d info pm (-122.4, 37.8) hpm hok (by rw [hco]; exact hconc)
  exact this

/-- Witness for C8 at concrete inputs. -/
theorem C8_coordinates_witness :
    parseLonLat "3,4" = .ok (3, 4) :=
  C8_coordinates.1 "3,4".data "3".data "4".data [] 3 4
    (by decide) (by decide) (by decide)

/-! ## C1: site identity resolution -/

/-- A placemark whose description embeds a vendor JSON name. -/
def exMetaDesc : String :=
  "<textarea rows=\"4\">\x7b \"name\": \"Meta\" \x7d</textarea>"

/-- A placemark named PM carrying the embedded metadata. -/
def exPmMeta : PlacemarkElem :=
  { nameTag := some "PM", nTag := none, coordinatesText := some "-1,2,0",
    descriptionText := some exMetaDesc }

/-- A document with no Document-level name, a named placemark and embedded
metadata. -/
def exDocMeta : KmlDoc :=
  { document := none, placemark := some exPmMeta, groundOverlays := [] }

/-- What `parse_kml` returns for `exDocMeta` under stem "sitefile". -/
def exInfoMeta : SiteInfo :=
  { site_name := "sitefile", lat := 2, lon := -1, antenna_agl_m := 10,
    folder_name := "sitefile", placemark_name := some "PM", overlays := [] }

/-- C1 is refuted on the code: this document carries both a decodable
embedded metadata name ("Meta") and a placemark name ("PM"), yet the emitted
site name is the file stem — neither the metadata name nor the placemark
name is consulted. -/
theorem C1_counterexample :
    spec_embedded_name exMetaDesc = some "Meta" ∧
    exDocMeta.placemark = some exPmMeta ∧
    exPmMeta.descriptionText = some exMetaDesc ∧
    parse_kml "sitefile" (some exDocMeta) = .ok exInfoMeta ∧
    exInfoMeta.placemark_name = some "PM" ∧
    exInfoMeta.site_name = "sitefile" ∧
    exInfoMeta.site_name ≠ "Meta" := by
  refine ⟨by decide, rfl, rfl, by decide, rfl, rfl, by decide⟩

/-- C1 (amended): site identity resolution in the code follows the
precedence: the document's declared name (under both a standard name tag and
a legacy n tag), then the source file's base name with the extension
stripped; the embedded metadata name, the placemark name and the folder name
are never consulted (the site name depends only on the Document element and
the stem). -/
theorem C1_amended_identity (stem : String) (d : KmlDoc) (info : SiteInfo)
    (h : parse_kml stem (some d) = .ok info) :
    info.site_name = siteNameOf stem d ∧
    (d.document = none → info.site_name = stem) ∧
    (∀ e, d.document = some e →
        strOptTruthy (get_element_name e.nameTag e.nTag) = true →
        info.site_name = (get_element_name e.nameTag e.nTag).getD stem) ∧
    (∀ pm gos, siteNameOf stem
        { document := d.document, placemark := pm, groundOverlays := gos } =
      siteNameOf stem d) := by
  obtain ⟨pm, ll, os, hpm, hc, hll, hos, hinfo⟩ := parse_kml_ok_inv h
  subst hinfo
  refine ⟨rfl, ?_, ?_, ?_⟩
  · intro hdoc
    simp [siteNameOf, hdoc]
  · intro e hdoc ht
    cases hge : get_element_name e.nameTag e.nTag with
    | none => simp [strOptTruthy, hge] at ht
    | some s =>
      simp only [strOptTruthy, hge, ne_eq, decide_eq_true_eq] at ht
      simp [siteNameOf, hdoc, hge, ht]
  · intro pm' gos'
    rfl

/-- A document carrying a Document-level name. -/
def exDocNamed : KmlDoc :=
  { document := some { nameTag := some "Site A", nTag := none },
    placemark := some { nameTag := none, nTag := none,
                        coordinatesText := some "1,2", descriptionText := none },
    groundOverlays := [] }

/-- What `parse_kml` returns for `exDocNamed` under stem "f". -/
def exInfoNamed : SiteInfo :=
  { site_name := "Site A", lat := 2, lon := 1, antenna_agl_m := 10,
    folder_name := "Site A", placemark_name := none, overlays := [] }

/-- Witness for the amended C1 at a concrete document. -/
theorem C1_amended_identity_witness :
    exInfoNamed.site_name = siteNameOf "f" exDocNamed ∧
    siteNameOf "f" exDocNamed = "Site A" :=
  ⟨(C1_amended_identity "f" exDocNamed exInfoNamed (by decide)).1, by decide⟩

/-! ## C7: antenna height -/

/-- C7: antenna height is taken from the first GroundOverlay block, in
document order, whose associated name/description text matches a height
pattern (case-insensitive, TX Height preferred over Height); later matches
never override it, and if no block matches, antenna_agl_m equals exactly
10.0. -/
theorem C7_antenna_height :
    (∀ (stem : String) (d : KmlDoc) (info : SiteInfo),
        parse_kml stem (some d) = .ok info →
        info.antenna_agl_m = antennaHeight d.groundOverlays) ∧
    (∀ gos : List GroundOverlayElem,
        (∀ g ∈ gos, extract_tx_height ((overlayHeightText g).getD "") = none) →
        antennaHeight gos = 10) ∧
    (∀ (l1 l2 : List GroundOverlayElem) (go : GroundOverlayElem) (h : ℚ),
        (∀ g ∈ l1, extract_tx_height ((overlayHeightText g).getD "") = none) →
        extract_tx_height ((overlayHeightText go).getD "") = some h →
        antennaHeight (l1 ++ go :: l2) = h) ∧
    (∀ (s : String) (ds : List Char) (q : ℚ),
        searchHeight "TX Height:".data s.data = some ds → pyFloatCore ds = some q →
        extract_tx_height s = some q) := by
  refine ⟨?_, ?_, ?_, ?_⟩
  · intro stem d info hok
    obtain ⟨pm, ll, os, _, _, _, _, hinfo⟩ := parse_kml_ok_inv hok
    subst hinfo
    rfl
  · intro gos hnone
    induction gos with
    | nil => rfl
    | cons g rest ih =>
      have hg := hnone g (List.mem_cons_self g rest)
      simp only [antennaHeight, hg]
      exact ih (fun g2 hg2 => hnone g2 (List.mem_cons_of_mem g hg2))
  · intro l1 l2 go h hnone hgo
    induction l1 with
    | nil =>
      simp only [List.nil_append, antennaHeight, hgo]
    | cons g rest ih =>
      have hg := hnone g (List.mem_cons_self g rest)
      simp only [List.cons_append, antennaHeight, hg]
      exact ih (fun g2 hg2 => hnone g2 (List.mem_cons_of_mem g hg2))
  · intro s ds q hs hq
    have hne : s ≠ "" := by
      intro h0
      subst h0
      rw [show ("" : String).data = [] from rfl] at hs
      exact absurd hs (by simp [searchHeight])
    simp only [extract_tx_height, if_neg hne, hs, hq]

/-- A GroundOverlay whose text matches no height pattern. -/
def exGoPlain : GroundOverlayElem :=
  { nameTag := some "hello world", nTag := none, descriptionText := none,
    latLonBox := none, icon := none }

/-- A GroundOverlay whose name declares a TX height of 5 m. -/
def exGoTx5 : GroundOverlayElem :=
  { nameTag := some "TX Height: 5 m", nTag := none, descriptionText := none,
    latLonBox := none, icon := none }

/-- A GroundOverlay whose name declares a plain height of 7 m. -/
def exGoH7 : GroundOverlayElem :=
  { nameTag := some "Height: 7 m", nTag := none, descriptionText := none,
    latLonBox := none, icon := none }

/-- Witness for C7 at concrete overlay lists. -/
theorem C7_antenna_height_witness :
    antennaHeight [exGoPlain, exGoTx5, exGoH7] = 5 ∧
    antennaHeight [exGoPlain] = 10 :=
  ⟨C7_antenna_height.2.2.1 [exGoPlain] [exGoH7] exGoTx5 5 (by decide) (by decide),
   C7_antenna_height.2.1 [exGoPlain] (by decide)⟩

/-! ## C4: overlay enumeration -/

/-- An overlay without a LatLonBox is skipped silently. -/
lemma mkOverlay_box_none (site png : String) (go : GroundOverlayElem)
    (hbox : go.latLonBox = none) : mkOverlay site png go = .ok none := by
  simp [mkOverlay, hbox]

/-- A skip (ok-none) only happens for an overlay without a LatLonBox. -/
lemma mkOverlay_ok_none_box (site png : String) (go : GroundOverlayElem)
    (h : mkOverlay site png go = .ok none) : go.latLonBox = none := by
  cases hbox : go.latLonBox with
  | none => rfl
  | some box =>
    cases hrot : parseRotation box.rotationText with
    | error m => simp [mkOverlay, hbox, hrot] at h
    | ok rot =>
      cases hs : get_bound box.southText with
      | error m => simp [mkOverlay, hbox, hrot, hs] at h
      | ok s =>
        cases hw : get_bound box.westText with
        | error m => simp [mkOverlay, hbox, hrot, hs, hw] at h
        | ok w =>
          cases hn : get_bound box.northText with
          | error m => simp [mkOverlay, hbox, hrot, hs, hw, hn] at h
          | ok n =>
            cases he : get_bound box.eastText with
            | error m => simp [mkOverlay, hbox, hrot, hs, hw, hn, he] at h
            | ok e2 => simp [mkOverlay, hbox, hrot, hs, hw, hn, he] at h

/-- An emitted overlay record comes from a block with a LatLonBox. -/
lemma mkOverlay_ok_some_box (site png : String) (go : GroundOverlayElem)
    (x : OverlayInfo) (h : mkOverlay site png go = .ok (some x)) :
    go.latLonBox.isSome = true := by
  cases hbox : go.latLonBox with
  | some box => rfl
  | none => simp [mkOverlay, hbox] at h

/-- A document with one GroundOverlay that has a complete LatLonBox but no
Icon element. -/
def exGoNoIcon : GroundOverlayElem :=
  { nameTag := none, nTag := none, descriptionText := none,
    latLonBox := some { southText := some "1", westText := some "2",
                        northText := some "3", eastText := some "4",
                        rotationText := none },
    icon := none }

/-- A plain placemark with integer coordinates. -/
def exPmPlain : PlacemarkElem :=
  { nameTag := none, nTag := none, coordinatesText := some "1,2",
    descriptionText := none }

/-- A document whose only overlay lacks an image-reference container. -/
def exDocNoIcon : KmlDoc :=
  { document := none, placemark := some exPmPlain,
    groundOverlays := [exGoNoIcon] }

/-- The number of overlay records of a parse outcome. -/
def overlaysCount (r : Except String SiteInfo) : Except String Nat :=
  r.map (fun i => i.overlays.length)

/-- C4 is refuted on the code: a GroundOverlay block with a bounding-box
container but no image-reference container is not skipped — it yields a
descriptor. -/
theorem C4_counterexample :
    exGoNoIcon.icon = none ∧
    overlaysCount (parse_kml "f" (some exDocNoIcon)) = .ok 1 := by
  refine ⟨rfl, by decide⟩

/-- C4 (amended): the extractor emits one descriptor for exactly those
GroundOverlay blocks that have a bounding-box container (whose edges must
then all parse, else the document fails); the image-reference container is
not required — its absence yields a descriptor with a null reference; blocks
lacking the bounding-box container are silently skipped; and for N blocks
with bounding boxes the ok outcome holds exactly N descriptors, in document
order. -/
theorem C4_amended_enumeration (site png : String) (gos : List GroundOverlayElem)
    (os : List OverlayInfo) (h : mkOverlays site png gos = .ok os) :
    List.Forall₂ (fun go o => mkOverlay site png go = .ok (some o))
      (gos.filter (fun go => go.latLonBox.isSome)) os ∧
    os.length = (gos.filter (fun go => go.latLonBox.isSome)).length ∧
    (∀ go, go.latLonBox = none → mkOverlay site png go = .ok none) := by
  have main : List.Forall₂ (fun go o => mkOverlay site png go = .ok (some o))
      (gos.filter (fun go => go.latLonBox.isSome)) os := by
    induction gos generalizing os with
    | nil =>
      simp only [mkOverlays] at h
      cases h
      simp [List.filter]
    | cons go rest ih =>
      cases hgo : mkOverlay site png go with
      | error m => simp [mkOverlays, hgo] at h
      | ok o =>
        cases hrest : mkOverlays site png rest with
        | error m => simp [mkOverlays, hgo, hrest] at h
        | ok os' =>
          cases o with
          | none =>
            have hbox := mkOverlay_ok_none_box site png go hgo
            simp only [mkOverlays, hgo, hrest] at h
            cases h
            have : go.latLonBox.isSome = false := by rw [hbox]; rfl
            simp only [List.filter, this]
            exact ih _ hrest
          | some x =>
            have hbox := mkOverlay_ok_some_box site png go x hgo
            simp only [mkOverlays, hgo, hrest] at h
            cases h
            simp only [List.filter, hbox]
            exact List.Forall₂.cons hgo (ih _ hrest)
  exact ⟨main, (List.Forall₂.length_eq main).symm, mkOverlay_box_none site png⟩

/-- The overlay record `mkOverlay` produces for `exGoNoIcon`. -/
def exOvNoIcon : OverlayInfo :=
  { name := "S", href := none, bounds := ((1, 2), (3, 4)), rotation := none,
    png_filename := "p.png" }

/-- Witness for the amended C4 at a concrete list of blocks. -/
theorem C4_amended_enumeration_witness :
    List.Forall₂ (fun go o => mkOverlay "S" "p.png" go = .ok (some o))
      ([exGoNoIcon].filter (fun go => go.latLonBox.isSome)) [exOvNoIcon] ∧
    ([exOvNoIcon] : List OverlayInfo).length =
      ([exGoNoIcon].filter (fun go => go.latLonBox.isSome)).length :=
  have h := C4_amended_enumeration "S" "p.png" [exGoNoIcon] [exOvNoIcon] (by decide)
  ⟨h.1, h.2.1⟩

/-! ## C5: fatal-per-document errors and batch isolation -/

/-- A GroundOverlay whose LatLonBox is present but has a missing or
unparsable edge value. -/
def BadBox (go : GroundOverlayElem) : Prop :=
  ∃ box, go.latLonBox = some box ∧
    (isErr (get_bound box.southText) = true ∨ isErr (get_bound box.westText) = true ∨
     isErr (get_bound box.northText) = true ∨ isErr (get_bound box.eastText) = true)

lemma mkOverlay_isErr_of_badBox (site png : String) (go : GroundOverlayElem)
    (h : BadBox go) : isErr (mkOverlay site png go) = true := by
  obtain ⟨box, hbox, hedge⟩ := h
  cases hrot : parseRotation box.rotationText with
  | error m => simp [isErr, mkOverlay, hbox, hrot]
  | ok rot =>
    cases hs : get_bound box.southText with
    | error m => simp [isErr, mkOverlay, hbox, hrot, hs]
    | ok s =>
      cases hw : get_bound box.westText with
      | error m => simp [isErr, mkOverlay, hbox, hrot, hs, hw]
      | ok w =>
        cases hn : get_bound box.northText with
        | error m => simp [isErr, mkOverlay, hbox, hrot, hs, hw, hn]
        | ok n =>
          cases he : get_bound box.eastText with
          | error m => simp [isErr, mkOverlay, hbox, hrot, hs, hw, hn, he]
          | ok e2 =>
            exfalso
            rcases hedge with hx | hx | hx | hx
            · rw [hs] at hx; simp [isErr] at hx
            · rw [hw] at hx; simp [isErr] at hx
            · rw [hn] at hx; simp [isErr] at hx
            · rw [he] at hx; simp [isErr] at hx

lemma mkOverlays_isErr_of_badBox (site png : String) (gos : List GroundOverlayElem)
    (h : ∃ go ∈ gos, BadBox go) : isErr (mkOverlays site png gos) = true := by
  induction gos with
  | nil =>
    obtain ⟨go, hm, _⟩ := h
    exact absurd hm (List.not_mem_nil go)
  | cons g rest ih =>
    obtain ⟨go, hm, hb⟩ := h
    rcases List.mem_cons.mp hm with rfl | hm2
    · have hge := mkOverlay_isErr_of_badBox site png go hb
      cases hgo : mkOverlay site png go with
      | error m => simp [isErr, mkOverlays, hgo]
      | ok o => rw [hgo] at hge; simp [isErr] at hge
    · cases hgo : mkOverlay site png g with
      | error m => simp [isErr, mkOverlays, hgo]
      | ok o =>
        have hrest := ih ⟨go, hm2, hb⟩
        cases hre : mkOverlays site png rest with
        | error m =>
          cases o with
          | none => simp [isErr, mkOverlays, hgo, hre]
          | some x => simp [isErr, mkOverlays, hgo, hre]
        | ok os => rw [hre] at hrest; simp [isErr] at hrest

/-- C5: malformed XML, a missing Placemark, missing Point coordinates, or a
missing or unparsable bounding-box edge inside a present LatLonBox is fatal
for that document only: the document contributes no manifest and no
index.json entry, while the rest of the batch is processed as if the
document were absent. -/
theorem C5_fatal_isolation (skip : Bool) (t : Nat) (stem : String) (d : KmlDoc)
    (l1 l2 : List DocInput) (bad : DocInput)
    (hbad : isErr (parse_kml bad.stem bad.parsed) = true) :
    isErr (parse_kml stem none) = true ∧
    (d.placemark = none → isErr (parse_kml stem (some d)) = true) ∧
    (∀ pm, d.placemark = some pm → coordTextOf pm = "" →
        isErr (parse_kml stem (some d)) = true) ∧
    ((∃ go ∈ d.groundOverlays, BadBox go) →
        isErr (parse_kml stem (some d)) = true) ∧
    processDoc skip t bad = none ∧
    runBatch skip t (l1 ++ bad :: l2) = runBatch skip t (l1 ++ l2) := by
  have hpd : processDoc skip t bad = none := by
    cases hp : parse_kml bad.stem bad.parsed with
    | error m => simp [processDoc, hp]
    | ok info => rw [hp] at hbad; simp [isErr] at hbad
  refine ⟨by simp [isErr, parse_kml], ?_, ?_, ?_, hpd, ?_⟩
  · intro hpm
    simp [isErr, parse_kml, hpm]
  · intro pm hpm hc
    simp [isErr, parse_kml, hpm, hc]
  · intro hex
    cases hpm : d.placemark with
    | none => simp [isErr, parse_kml, hpm]
    | some pm =>
      by_cases hc : coordTextOf pm = ""
      · simp [isErr, parse_kml, hpm, hc]
      · cases hll : parseLonLat (coordTextOf pm) with
        | error m => simp [isErr, parse_kml, hpm, hc, hll]
        | ok ll =>
          have hmk := mkOverlays_isErr_of_badBox (siteNameOf stem d) (stem ++ ".png")
            d.groundOverlays hex
          cases hos : mkOverlays (siteNameOf stem d) (stem ++ ".png") d.groundOverlays with
          | error m => simp [isErr, parse_kml, hpm, hc, hll, hos]
          | ok os => rw [hos] at hmk; simp [isErr] at hmk
  · unfold runBatch
    rw [List.filterMap_append, List.filterMap_append]
    simp [List.filterMap_cons, hpd]

/-- A batch input whose document fails to parse (malformed XML). -/
def exBadInput : DocInput :=
  { stem := "b", fileName := "b.kml", dirName := "in", parsed := none,
    worlds := fun _ => default }

/-- A batch input whose document parses. -/
def exGoodInput : DocInput :=
  { stem := "g", fileName := "g.kml", dirName := "in",
    parsed := some exDocNamed, worlds := fun _ => default }

/-- Witness for C5 at a concrete two-document batch. -/
theorem C5_fatal_isolation_witness :
    processDoc false 120 exBadInput = none ∧
    runBatch false 120 ([exGoodInput] ++ exBadInput :: []) =
      runBatch false 120 ([exGoodInput] ++ []) :=
  have h := C5_fatal_isolation false 120 "f" exDocNamed [exGoodInput] []
    exBadInput (by decide)
  ⟨h.2.2.2.2.1, h.2.2.2.2.2⟩

/-! ## Helpers for the per-overlay entry claims -/

/-- The image field of a processed overlay entry: null exactly when an
actually attempted remote download failed, the computed manifest path in
every other case. -/
lemma processOverlay_image_eq (skip : Bool) (t : Nat) (dir site : String)
    (ov : OverlayInfo) (w : OverlayWorld) :
    (processOverlay skip t dir site ov w).1.image =
      if (strOptTruthy ov.href && isHttpUrl (ov.href.getD "") && !skip &&
          !(download t w.net).1.ok) = true
      then none
      else some (image_rel site ov.png_filename) := by
  by_cases h1 : strOptTruthy ov.href = true <;>
    by_cases h2 : isHttpUrl (ov.href.getD "") = true <;>
    by_cases h3 : skip = true <;>
    by_cases h4 : w.localPresent = true <;>
    by_cases h5 : (download t w.net).1.ok = true <;>
    simp [processOverlay, h1, h2, h3, h4, h5]

/-- An overlay record produced by the overlay loop carries the png filename
the loop was given. -/
lemma mkOverlay_png (site png : String) (go : GroundOverlayElem) (x : OverlayInfo)
    (h : mkOverlay site png go = .ok (some x)) : x.png_filename = png := by
  cases hbox : go.latLonBox with
  | none => simp [mkOverlay, hbox] at h
  | some box =>
    cases hrot : parseRotation box.rotationText with
    | error m => simp [mkOverlay, hbox, hrot] at h
    | ok rot =>
      cases hs : get_bound box.southText with
      | error m => simp [mkOverlay, hbox, hrot, hs] at h
      | ok s =>
        cases hw : get_bound box.westText with
        | error m => simp [mkOverlay, hbox, hrot, hs, hw] at h
        | ok w =>
          cases hn : get_bound box.northText with
          | error m => simp [mkOverlay, hbox, hrot, hs, hw, hn] at h
          | ok n =>
            cases he : get_bound box.eastText with
            | error m => simp [mkOverlay, hbox, hrot, hs, hw, hn, he] at h
            | ok e2 =>
              simp only [mkOverlay, hbox, hrot, hs, hw, hn, he, Except.ok.injEq,
                Option.some.injEq] at h
              rw [← h]

lemma mkOverlays_png (site png : String) :
    ∀ (gos : List GroundOverlayElem) (os : List OverlayInfo),
      mkOverlays site png gos = .ok os → ∀ o ∈ os, o.png_filename = png := by
  intro gos
  induction gos with
  | nil =>
    intro os h o ho
    simp only [mkOverlays] at h
    cases h
    exact absurd ho (List.not_mem_nil o)
  | cons g rest ih =>
    intro os h o ho
    cases hgo : mkOverlay site png g with
    | error m => simp [mkOverlays, hgo] at h
    | ok oo =>
      cases hre : mkOverlays site png rest with
      | error m => simp [mkOverlays, hgo, hre] at h
      | ok os' =>
        cases oo with
        | none =>
          simp only [mkOverlays, hgo, hre] at h
          cases h
          exact ih _ hre o ho
        | some x =>
          simp only [mkOverlays, hgo, hre] at h
          cases h
          rcases List.mem_cons.mp ho with rfl | ho2
          · exact mkOverlay_png site png g o hgo
          · exact ih _ hre o ho2

/-- Every element of the processed-overlay list is the processing of one of
the parsed overlays at some world index. -/
lemma mem_processOverlayList (skip : Bool) (t : Nat) (dir site : String)
    (ws : Nat → OverlayWorld) :
    ∀ (i : Nat) (ovs : List OverlayInfo) (p : ManifestEntry × Bool),
      p ∈ processOverlayList skip t dir site ws i ovs →
      ∃ j ov, ov ∈ ovs ∧ p = processOverlay skip t dir site ov (ws j) := by
  intro i ovs
  induction ovs generalizing i with
  | nil => intro p hp; simp [processOverlayList] at hp
  | cons ov rest ih =>
    intro p hp
    simp only [processOverlayList, List.mem_cons] at hp
    rcases hp with rfl | hp2
    · exact ⟨i, ov, List.mem_cons_self ov rest, rfl⟩
    · obtain ⟨j, ov2, hm, he⟩ := ih (i + 1) p hp2
      exact ⟨j, ov2, List.mem_cons_of_mem ov hm, he⟩

/-- Middle cancellation for string concatenation. -/
lemma append_middle_cancel (p s s' q : String) :
    p ++ s ++ q = p ++ s' ++ q ↔ s = s' := by
  obtain ⟨lp⟩ := p
  obtain ⟨ls⟩ := s
  obtain ⟨ls'⟩ := s'
  obtain ⟨lq⟩ := q
  constructor
  · intro h
    have h2 : lp ++ ls ++ lq = lp ++ ls' ++ lq := congrArg String.data h
    rw [List.append_assoc, List.append_assoc] at h2
    have h3 := List.append_cancel_left h2
    have h4 := List.append_cancel_right h3
    rw [h4]
  · intro h
    rw [h]

/-! ## C2: skip-downloads mode -/

/-- An overlay with no image reference at all. -/
def exOvLocal : OverlayInfo :=
  { name := "S", href := none, bounds := ((1, 2), (3, 4)), rotation := none,
    png_filename := "s.png" }

/-- A world where the local PNG next to the KML exists. -/
def exWLocal : OverlayWorld := { localPresent := true, net := .timeout }

/-- C2 is refuted on the code: in skip-downloads mode an overlay with no
image reference still goes through the local-copy logic and can succeed,
so its entry has download_ok true and not the fixed skip message. -/
theorem C2_counterexample :
    (processOverlay true 120 "in" "S" exOvLocal exWLocal).1.download_ok = true ∧
    (processOverlay true 120 "in" "S" exOvLocal exWLocal).1.error ≠
      some "Downloads skipped by --skip-downloads" := by
  exact ⟨by decide, by decide⟩

/-- C2 (amended): in skip-downloads mode, for every overlay whose image
reference is truthy and an absolute HTTP(S) URL, the emitted entry has
download_ok false, http_status null, error equal to the fixed skip message,
and image still set to the computed manifest path, and no file is written;
overlays with no reference or a non-URL reference undergo the local-copy
logic regardless of the flag. -/
theorem C2_amended_skip_mode (t : Nat) (dir site u : String) (ov : OverlayInfo)
    (w : OverlayWorld) (hu : ov.href = some u) (hurl : isHttpUrl u = true) :
    (processOverlay true t dir site ov w).1.download_ok = false ∧
    (processOverlay true t dir site ov w).1.http_status = none ∧
    (processOverlay true t dir site ov w).1.error =
      some "Downloads skipped by --skip-downloads" ∧
    (processOverlay true t dir site ov w).1.image =
      some (image_rel site ov.png_filename) ∧
    (processOverlay true t dir site ov w).2 = false := by
  have hne : u ≠ "" := by
    intro h0
    subst h0
    exact absurd hurl (by decide)
  have h1 : strOptTruthy ov.href = true := by rw [hu]; simp [strOptTruthy, hne]
  have h2 : ov.href.getD "" = u := by rw [hu]; rfl
  refine ⟨?_, ?_, ?_, ?_, ?_⟩ <;> simp [processOverlay, h1, h2, hurl]

/-- An overlay whose reference is a remote URL. -/
def exOvUrl : OverlayInfo :=
  { name := "S", href := some "http://h/x.png", bounds := ((1, 2), (3, 4)),
    rotation := none, png_filename := "s.png" }

/-- Witness for the amended C2 at a concrete URL overlay. -/
theorem C2_amended_skip_mode_witness :
    (processOverlay true 120 "in" "S" exOvUrl exWLocal).1.error =
      some "Downloads skipped by --skip-downloads" ∧
    (processOverlay true 120 "in" "S" exOvUrl exWLocal).1.download_ok = false :=
  have h := C2_amended_skip_mode 120 "in" "S" "http://h/x.png" exOvUrl exWLocal
    rfl (by decide)
  ⟨h.2.2.1, h.1⟩

/-! ## C3: the manifest image path -/

/-- A world answering the GET with a 404. -/
def exW404 : OverlayWorld := { localPresent := false, net := .response 404 }

/-- C3 is refuted on the code: on a failed remote download the entry's image
field is null, not the computed manifest path. -/
theorem C3_counterexample :
    (processOverlay false 120 "in" "S" exOvUrl exW404).1.image = none ∧
    image_rel "S" "s.png" = "/potential/S/overlays/s.png" := by
  exact ⟨by decide, by decide⟩

/-- C3 (amended): for every retained overlay the manifest path
/potential/site-name/overlays/filename is computed, and it is recorded in
the entry's image field in every case except a failed actually-attempted
remote download (truthy URL reference, skip mode off, download not ok),
where image is null and the failure is described by error/http_status. -/
theorem C3_amended_image_path (skip : Bool) (t : Nat) (dir site : String)
    (ov : OverlayInfo) (w : OverlayWorld) :
    (processOverlay skip t dir site ov w).1.image =
      if (strOptTruthy ov.href && isHttpUrl (ov.href.getD "") && !skip &&
          !(download t w.net).1.ok) = true
      then none
      else some (image_rel site ov.png_filename) :=
  processOverlay_image_eq skip t dir site ov w

/-! ## C6: remote 404 handling -/

/-- C6: an HTTP 404 for an overlay image yields download_ok false,
http_status 404, a non-null error, image null and no file written, and a
parsed document's manifest is still produced and referenced from
index.json regardless of its overlay outcomes. -/
theorem C6_http404 (t : Nat) (dir site u : String) (ov : OverlayInfo)
    (w : OverlayWorld) (hu : ov.href = some u) (hurl : isHttpUrl u = true)
    (hnet : w.net = .response 404) :
    (processOverlay false t dir site ov w).1.download_ok = false ∧
    (processOverlay false t dir site ov w).1.http_status = some 404 ∧
    (processOverlay false t dir site ov w).1.error = some "404 Not Found" ∧
    (processOverlay false t dir site ov w).1.image = none ∧
    (processOverlay false t dir site ov w).2 = false ∧
    (∀ (skip2 : Bool) (t2 : Nat) (docs : List DocInput) (dIn : DocInput)
        (out : DocOutput), dIn ∈ docs → processDoc skip2 t2 dIn = some out →
        out.indexEntry ∈ (runBatch skip2 t2 docs).1) ∧
    (∀ (skip2 : Bool) (t2 : Nat) (dIn : DocInput) (info : SiteInfo),
        parse_kml dIn.stem dIn.parsed = .ok info →
        processDoc skip2 t2 dIn ≠ none) := by
  have hne : u ≠ "" := by
    intro h0
    subst h0
    exact absurd hurl (by decide)
  have h1 : strOptTruthy ov.href = true := by rw [hu]; simp [strOptTruthy, hne]
  have h2 : ov.href.getD "" = u := by rw [hu]; rfl
  have hdl : download t w.net =
      ({ ok := false, http_status := some 404, error := some "404 Not Found" },
        false) := by
    rw [hnet]
    simp [download]
  refine ⟨?_, ?_, ?_, ?_, ?_, ?_, ?_⟩
  · simp [processOverlay, h1, h2, hurl, hdl]
  · simp [processOverlay, h1, h2, hurl, hdl]
  · simp [processOverlay, h1, h2, hurl, hdl]
  · simp [processOverlay, h1, h2, hurl, hdl]
  · simp [processOverlay, h1, h2, hurl, hdl]
  · intro skip2 t2 docs dIn out hmem hpd
    simp only [runBatch]
    exact List.mem_map_of_mem _ (List.mem_filterMap.mpr ⟨dIn, hmem, hpd⟩)
  · intro skip2 t2 dIn info hok
    simp [processDoc, hok]

/-- Witness for C6 at a concrete 404 and a concrete parsed document. -/
theorem C6_http404_witness :
    (processOverlay false 120 "in" "S" exOvUrl exW404).1.http_status = some 404 ∧
    (processOverlay false 120 "in" "S" exOvUrl exW404).1.image = none ∧
    processDoc false 120 exGoodInput ≠ none :=
  have h := C6_http404 120 "in" "S" "http://h/x.png" exOvUrl exW404 rfl
    (by decide) rfl
  ⟨h.2.1, h.2.2.2.1, h.2.2.2.2.2.2 false 120 exGoodInput exInfoNamed (by decide)⟩

/-! ## C10: raw site name in recorded paths, slug on disk -/

/-- C10: for every successfully parsed document, the index.json entry and
every recorded overlay image path embed the raw site name, while the output
directory is the slugified site name; the recorded index entry names the
slug directory precisely when slugify leaves the site name unchanged. -/
theorem C10_raw_vs_slug (skip : Bool) (t : Nat) (d : DocInput) (out : DocOutput)
    (h : processDoc skip t d = some out) :
    out.indexEntry =
      POTENTIAL_BASE ++ "/" ++ out.manifest.site_name ++ "/manifest.json" ∧
    out.slug = slugify out.manifest.site_name ∧
    (∀ e ∈ out.manifest.overlays, e.image = none ∨
        e.image = some (image_rel out.manifest.site_name (d.stem ++ ".png"))) ∧
    (out.indexEntry =
        POTENTIAL_BASE ++ "/" ++ slugify out.manifest.site_name ++ "/manifest.json" ↔
      slugify out.manifest.site_name = out.manifest.site_name) := by
  cases hp : parse_kml d.stem d.parsed with
  | error m => simp [processDoc, hp] at h
  | ok info =>
    cases hdp : d.parsed with
    | none =>
      rw [hdp] at hp
      simp [parse_kml] at hp
    | some doc =>
      rw [hdp] at hp
      simp only [processDoc, hdp, hp, Option.some.injEq] at h
      subst h
      refine ⟨rfl, rfl, ?_, ?_⟩
      · intro e he
        simp only [List.mem_map] at he
        obtain ⟨p, hp2, rfl⟩ := he
        obtain ⟨j, ov, hov, rfl⟩ := mem_processOverlayList skip t d.dirName
          info.site_name d.worlds 0 info.overlays p hp2
        obtain ⟨pm, ll, os, hpm2, hc2, hll2, hos2, hinfo⟩ := parse_kml_ok_inv hp
        have hoseq : info.overlays = os := by rw [hinfo]
        rw [hoseq] at hov
        have hpng : ov.png_filename = d.stem ++ ".png" :=
          mkOverlays_png (siteNameOf d.stem doc) (d.stem ++ ".png")
            doc.groundOverlays os hos2 ov hov
        rw [processOverlay_image_eq]
        by_cases hcond : (strOptTruthy ov.href && isHttpUrl (ov.href.getD "") &&
            !skip && !(download t (d.worlds j).net).1.ok) = true
        · rw [if_pos hcond]
          exact Or.inl rfl
        · rw [if_neg hcond]
          rw [hpng]
          exact Or.inr rfl
      · have hi := append_middle_cancel (POTENTIAL_BASE ++ "/") info.site_name
          (slugify info.site_name) "/manifest.json"
        exact ⟨fun hh => (hi.mp hh).symm, fun hh => hi.mpr hh.symm⟩

/-- What `main` produces for `exGoodInput`. -/
def exOutGood : DocOutput :=
  { slug := "Site_A",
    manifest := { site_name := "Site A", lat := 2, lon := 1, antenna_agl_m := 10,
                  antenna_agl_note := "", folder_name := "Site A",
                  placemark_name := none, source_kml := "g.kml", overlays := [] },
    indexEntry := "potential/Site A/manifest.json",
    imagesWritten := [] }

/-- Witness for C10 at a concrete processed document. -/
theorem C10_raw_vs_slug_witness :
    exOutGood.slug = slugify exOutGood.manifest.site_name ∧
    exOutGood.indexEntry =
      POTENTIAL_BASE ++ "/" ++ exOutGood.manifest.site_name ++ "/manifest.json" :=
  have h := C10_raw_vs_slug false 120 exGoodInput exOutGood (by decide)
  ⟨h.2.1, h.1⟩

end KmlToLeaflet
